import Mathlib

/-!
Formal model of the YYDB audio analyzer (`yydb.py`).

The analyzer loads an audio file, extracts acoustic features concurrently,
derives a composite quality score from threshold rules, renders a spectrogram,
and supports playback with seek via temporary WAV assets.  We embed the
analysis pipeline, the scoring rules, the content-hash helper and the playback
controller as pure Lean functions over rational sample values, with the
external DSP library calls (librosa) represented by their already-computed
results and the base-10 logarithm kept as an abstract function parameter.
-/

namespace YYDB

/-! ## Scoring engine (`yydb.py` lines 529-537)

`analyze_file` builds `self.score_detail`, a map from five criterion names to
sub-scores (20 on the high branch, 10 on the low branch), and `self.score` is
the sum of the five sub-scores. -/

/-- The four feature values consulted by the scoring rules. -/
structure Features where
  bitrate_kbps : ℚ
  dynamic_range_db : ℚ
  loudness_db : ℚ
  spectral_bandwidth_hz : ℚ

/-- The five sub-scores of `self.score_detail` (比特率, 动态范围, 编码质量,
响度与动态, 结构完整性). -/
structure ScoreBreakdown where
  bitrate : ℤ
  dynamicRange : ℤ
  encodingQuality : ℤ
  loudnessDynamics : ℤ
  structuralIntegrity : ℤ
deriving DecidableEq

/-- Embedding of the `self.score_detail` assignment (lines 530-536). -/
def scoreDetail (f : Features) : ScoreBreakdown where
  bitrate := if f.bitrate_kbps > 256 then 20 else 10
  dynamicRange := if f.dynamic_range_db > 12 then 20 else 10
  encodingQuality := if f.bitrate_kbps > 256 then 20 else 10
  loudnessDynamics := if f.loudness_db > -18 ∧ f.dynamic_range_db > 12 then 20 else 10
  structuralIntegrity := if f.spectral_bandwidth_hz > 1000 then 20 else 10

/-- Embedding of `self.score = sum(self.score_detail.values())` (line 537). -/
def compositeScore (f : Features) : ℤ :=
  (scoreDetail f).bitrate + (scoreDetail f).dynamicRange +
    (scoreDetail f).encodingQuality + (scoreDetail f).loudnessDynamics +
    (scoreDetail f).structuralIntegrity

/-! ## Numeric helpers shared by the extraction pipeline -/

/-- Sum of a list of rationals (model of `np.sum`). -/
def qsum (l : List ℚ) : ℚ := l.foldr (· + ·) 0

/-- Arithmetic mean of a list of rationals (model of `np.mean` / `.mean()`). -/
def qmean (l : List ℚ) : ℚ := qsum l / l.length

/-- Maximum absolute sample value, `np.max(np.abs(y))` (line 492); absolute
values are nonnegative, so folding `max` from `0` agrees with `np.max` on
every nonempty buffer. -/
def peakAbs (y : List ℚ) : ℚ := (y.map (fun x => |x|)).foldr max 0

/-- The `1e-9` guard added inside the logarithms (lines 493-494). -/
def eps : ℚ := 1 / 1000000000

/-- The `1e-4` silence threshold (line 498). -/
def silentEps : ℚ := 1 / 10000

/-- Loudness, `20 * np.log10(rms + 1e-9)` (line 493), with `log10` abstract. -/
def loudnessDb (log10 : ℚ → ℚ) (rms : ℚ) : ℚ := 20 * log10 (rms + eps)

/-- Dynamic range, `20 * np.log10((peak + 1e-9) / (rms + 1e-9))` (line 494). -/
def dynamicRangeDb (log10 : ℚ → ℚ) (peak rms : ℚ) : ℚ :=
  20 * log10 ((peak + eps) / (rms + eps))

/-- Silent ratio, `np.mean(np.abs(self.y) < 1e-4)` (line 498): the mean of the
0/1 indicator of the comparison. -/
def silentRatio (y : List ℚ) : ℚ :=
  qmean (y.map (fun x => if |x| < silentEps then (1 : ℚ) else 0))

/-- Model of `np.median` on the flattened magnitude matrix (line 511): middle
element of the sorted values, or the average of the two middle elements when
the count is even. -/
def npMedian (l : List ℚ) : ℚ :=
  let s := List.insertionSort (· ≤ ·) l
  let n := l.length
  if n % 2 = 1 then s.getD (n / 2) 0
  else (s.getD (n / 2 - 1) 0 + s.getD (n / 2) 0) / 2

/-- Pitch estimate (lines 510-512): flatten the pitch/magnitude matrix to a
list of `(pitch, magnitude)` bins, keep the bins whose magnitude exceeds the
median magnitude (`pitches[magnitudes > np.median(magnitudes)]`) and return
the mean of the kept pitches, or `0` when none is kept. -/
def pitchMeanOf (bins : List (ℚ × ℚ)) : ℚ :=
  let m := npMedian (bins.map Prod.snd)
  let kept := bins.filter (fun b => decide (m < b.2))
  if kept = [] then 0 else qmean (kept.map Prod.fst)

/-! ## Feature-extraction pipeline (`yydb.py` lines 480-516)

`analyze_file` submits the librosa feature computations to a
`ThreadPoolExecutor`, computes the onset envelope and tempo serially, and then
consumes the futures in a fixed order, inserting one info line per feature as
each value becomes available.  A future whose task raised re-raises its
exception at `.result()`, aborting the whole method there; we model each
library computation by its `Except`-valued outcome and thread the list of info
lines already inserted. -/

/-- Outcomes of the library computations dispatched in lines 482-488: each is
either the computed value or the exception message the task raised. -/
structure TaskResults where
  rms : Except String (List ℚ)
  zcr : Except String (List ℚ)
  pitch : Except String (List (ℚ × ℚ))
  centroid : Except String (List ℚ)
  bw : Except String (List ℚ)
  onsetTempo : Except String ℚ

/-- A feature line inserted into the info panel (lines 495-513), tagged with
the metric it reports. -/
inductive ReportLine where
  | loudness (v : ℚ)
  | dynamicRange (v : ℚ)
  | silent (v : ℚ)
  | centroid (v : ℚ)
  | bandwidth (v : ℚ)
  | tempo (v : ℚ)
  | zeroCrossing (v : ℚ)
  | pitch (v : ℚ)
deriving DecidableEq

/-- The feature values assembled by a fully successful extraction. -/
structure Extracted where
  loudness_db : ℚ
  dynamic_range_db : ℚ
  silent_ratio : ℚ
  spectral_centroid_hz : ℚ
  spectral_bandwidth_hz : ℚ
  tempo_bpm : ℚ
  zero_crossing_rate : ℚ
  pitch_mean_hz : ℚ
deriving DecidableEq

/-- Embedding of the extraction block (lines 480-513): the serial
onset/tempo computation runs first (lines 487-488), then the futures are
consumed in the order `rms`, `spectral_centroid`, `spectral_bandwidth`,
`zero_crossing_rate`, `piptrack` with an info line inserted per feature
(the tempo line is inserted right after the bandwidth line, line 505).
Returns the lines inserted so far together with either the assembled
features or the exception that aborted the method. -/
def runExtraction (log10 : ℚ → ℚ) (t : TaskResults) (y : List ℚ) :
    List ReportLine × Except String Extracted :=
  match t.onsetTempo with
  | .error e => ([], .error e)
  | .ok tempo =>
    match t.rms with
    | .error e => ([], .error e)
    | .ok rmsAll =>
      let rms := qmean rmsAll
      let peak := peakAbs y
      let loud := loudnessDb log10 rms
      let dyn := dynamicRangeDb log10 peak rms
      let sil := silentRatio y
      let l1 : List ReportLine := [.loudness loud, .dynamicRange dyn, .silent sil]
      match t.centroid with
      | .error e => (l1, .error e)
      | .ok cen =>
        let c := qmean cen
        let l2 := l1 ++ [.centroid c]
        match t.bw with
        | .error e => (l2, .error e)
        | .ok bwAll =>
          let b := qmean bwAll
          let l3 := l2 ++ [.bandwidth b, .tempo tempo]
          match t.zcr with
          | .error e => (l3, .error e)
          | .ok zAll =>
            let z := qmean zAll
            let l4 := l3 ++ [.zeroCrossing z]
            match t.pitch with
            | .error e => (l4, .error e)
            | .ok bins =>
              let pm := pitchMeanOf bins
              (l4 ++ [.pitch pm],
               .ok { loudness_db := loud, dynamic_range_db := dyn,
                     silent_ratio := sil, spectral_centroid_hz := c,
                     spectral_bandwidth_hz := b, tempo_bpm := tempo,
                     zero_crossing_rate := z, pitch_mean_hz := pm })

/-- True exactly when the computation raised. -/
def exceptFailed {α : Type} : Except String α → Bool
  | .error _ => true
  | .ok _ => false

/-- True when some dispatched task raised (so some `.result()` call or the
serial onset/tempo computation re-raises). -/
def TaskResults.anyFailed (t : TaskResults) : Bool :=
  exceptFailed t.onsetTempo || exceptFailed t.rms || exceptFailed t.centroid ||
    exceptFailed t.bw || exceptFailed t.zcr || exceptFailed t.pitch

/-- The composite score computed at lines 529-537, reached only when the
extraction block completed: `none` models the method aborting before the
scoring section. -/
def analyzeScore (log10 : ℚ → ℚ) (t : TaskResults) (y : List ℚ)
    (bitrate : ℚ) : Option ℤ :=
  match (runExtraction log10 t y).2 with
  | .error _ => none
  | .ok ex =>
    some (compositeScore
      { bitrate_kbps := bitrate, dynamic_range_db := ex.dynamic_range_db,
        loudness_db := ex.loudness_db,
        spectral_bandwidth_hz := ex.spectral_bandwidth_hz })

/-- The values assigned to the overall progress bar during one analysis run,
in program order: 0 (line 456), 10 (line 477), then — only if the extraction
block completed — 50, 60, 70, 80 (lines 515-550) and finally 100 from the
spectrogram display callback (line 593) when the render thread succeeds. -/
def analyzeProgressTrace (log10 : ℚ → ℚ) (t : TaskResults) (y : List ℚ)
    (renderOk : Bool) : List ℕ :=
  [0, 10] ++
    match (runExtraction log10 t y).2 with
    | .error _ => []
    | .ok _ => [50, 60, 70, 80] ++ (if renderOk then [100] else [])

/-! ## Content hashing (`yydb.py` lines 37-42 and 522)

`hash_file` feeds the file to an incremental MD5 in 8192-byte chunks;
the analysis section (line 522) instead hashes the whole file in one call.
MD5 itself is external (`hashlib`): an incremental MD5 object accumulates the
bytes fed to it and `hexdigest()` is a pure function of the accumulated
bytes, which we keep abstract as a `digest` parameter.  A file system maps
paths to byte contents. -/

/-- The successive `f.read(8192)` chunks of a byte string: the walrus loop in
`hash_file` stops at the first empty read. -/
def chunksOf : List ℕ → List (List ℕ)
  | [] => []
  | a :: rest => (a :: rest).take 8192 :: chunksOf ((a :: rest).drop 8192)
termination_by l => l.length
decreasing_by simp [List.length_drop]; omega

/-- Embedding of `hash_file` (lines 37-42): start from an empty MD5 state,
fold `update` (byte accumulation) over the 8192-byte chunks, and finish with
`hexdigest` (the abstract `digest`). -/
def md5Stream (digest : List ℕ → String) (content : List ℕ) : String :=
  digest ((chunksOf content).foldl (fun acc c => acc ++ c) [])

/-- Embedding of the one-shot hash at line 522:
`hashlib.md5(open(path, "rb").read()).hexdigest()`. -/
def md5OneShot (digest : List ℕ → String) (content : List ℕ) : String :=
  digest content

/-- `hash_file(path)` as a function of the file system `fs` mapping each path
to the byte content read from it. -/
def hashFile (digest : List ℕ → String) (fs : String → List ℕ)
    (path : String) : String :=
  md5Stream digest (fs path)

/-! ## Playback controller (`yydb.py` lines 341-427)

The transport state lives in the instance fields `file_path`, `y`, `y_full`,
`sr`, `duration`, `playing`, `paused`; seeks materialize a suffix of the
analysis buffer `self.y` into a temporary WAV file.  We model the file at
`self.file_path` by its decoded sample list, the mixer's loaded audio by the
sample list it plays, and the temp directory by the list of asset names it
contains.  `self.sr is None` exactly when `self.y is None` (both are set
together at line 471), so a single `Option` guard models the line 385 check. -/

/-- Playback/analysis state of the `AudioAnalyzerApp` instance. -/
structure PlayerState where
  fileSamples : Option (List ℚ)
  y : Option (List ℚ)
  yFull : Option (List ℚ)
  sr : ℕ
  duration : ℚ
  playing : Bool
  paused : Bool
  asset : Option (List ℚ)
  tempAssets : List String
deriving DecidableEq

/-- The state built by `__init__` (lines 47-52): no file, no buffers, not
playing, not paused. -/
def initState : PlayerState where
  fileSamples := none
  y := none
  yFull := none
  sr := 0
  duration := 0
  playing := false
  paused := false
  asset := none
  tempAssets := []

/-- `reset_player` (lines 349-355): stop the mixer and clear both flags. -/
def resetPlayer (st : PlayerState) : PlayerState :=
  { st with playing := false, paused := false }

/-- `choose_file` (lines 341-347): record the selected file, then
`reset_player`. -/
def chooseFile (samples : List ℚ) (st : PlayerState) : PlayerState :=
  resetPlayer { st with fileSamples := some samples }

/-- The audio-loading step of `analyze_file` (lines 471-474): `self.y` is the
mono buffer capped at 60 seconds (`duration=60.0`), `self.y_full` the full
buffer, and `self.duration` the full file duration from `sf.info`. -/
def loadAudio (samples : List ℚ) (sr : ℕ) (st : PlayerState) : PlayerState :=
  { st with fileSamples := some samples,
            y := some (samples.take (60 * sr)),
            yFull := some samples,
            sr := sr,
            duration := (samples.length : ℚ) / (sr : ℚ) }

/-- `play_audio` (lines 357-364): no-op without a file; otherwise load the
file into the mixer, play, set `playing`, clear `paused`. -/
def playAudio (st : PlayerState) : PlayerState :=
  match st.fileSamples with
  | none => st
  | some s => { st with playing := true, paused := false, asset := some s }

/-- `pause_audio` (lines 366-369): set `paused` only while `playing`. -/
def pauseAudio (st : PlayerState) : PlayerState :=
  if st.playing then { st with paused := true } else st

/-- `resume_audio` (lines 371-374): clear `paused` only while `paused`. -/
def resumeAudio (st : PlayerState) : PlayerState :=
  if st.paused then { st with paused := false } else st

/-- `stop_audio` (lines 376-382): clear both flags. -/
def stopAudio (st : PlayerState) : PlayerState :=
  { st with playing := false, paused := false }

/-- The temp-directory cleanup loop of `seek_audio` (lines 417-422): every
`seek_temp_*.wav` file in the directory — the newly written one included —
is removed when its `os.remove` succeeds; failures are swallowed by the
inner `except: pass`. -/
def cleanupTempAssets (deleteOk : String → Bool) (assets : List String) :
    List String :=
  assets.filter (fun f => !deleteOk f)

/-- Python `int()` on a rational: truncation toward zero (`Int.tdiv` of the
numerator by the positive denominator). -/
def pyInt (q : ℚ) : ℤ := q.num.tdiv q.den

/-- Environment of one `seek_audio` call: the fresh asset name
`seek_temp_{time.time()}.wav`, whether the write/load/play sequence
(lines 405-410) succeeds, and which `os.remove` calls succeed. -/
structure SeekIO where
  newAssetName : String
  writeOk : Bool
  deleteOk : String → Bool

/-- `seek_audio(val)` (lines 384-426).  Guard (line 385): no-op when no
buffer is loaded or the duration is not positive.  Otherwise clamp `val` into
`[0, 100]`, convert to a start sample with Python `int` truncation (the value
is nonnegative, so truncation is the floor), return when the start is past
the analysis buffer `self.y`, and otherwise write `self.y[start_sample:]` to
a fresh temp asset, play it, set the flags, and run the cleanup loop.  An
exception before the state updates (modelled by `writeOk = false`) is caught
at line 424 and leaves the fields unchanged. -/
def seekAudio (io : SeekIO) (val : ℚ) (st : PlayerState) : PlayerState :=
  match st.y with
  | none => st
  | some y =>
    if st.duration ≤ 0 then st
    else
      let pos := max 0 (min 100 val)
      let seekTime := pos / 100 * st.duration
      let startSample := (pyInt (seekTime * (st.sr : ℚ))).toNat
      if y.length ≤ startSample then st
      else if io.writeOk then
        { st with playing := true, paused := false,
                  asset := some (y.drop startSample),
                  tempAssets :=
                    cleanupTempAssets io.deleteOk
                      (st.tempAssets ++ [io.newAssetName]) }
      else st

/-- Duration in seconds of the audio currently loaded in the mixer. -/
def assetDuration (st : PlayerState) : ℚ :=
  match st.asset with
  | none => 0
  | some a => (a.length : ℚ) / (st.sr : ℚ)

/-- One user transport command, with the external outcomes a `seek` depends
on carried in the command. -/
inductive TransportOp where
  | choose (samples : List ℚ)
  | load (samples : List ℚ) (sr : ℕ)
  | play
  | pause
  | resume
  | stop
  | reset
  | seek (io : SeekIO) (val : ℚ)

/-- Dispatch one transport command to its handler. -/
def stepTransport (st : PlayerState) : TransportOp → PlayerState
  | .choose s => chooseFile s st
  | .load s sr => loadAudio s sr st
  | .play => playAudio st
  | .pause => pauseAudio st
  | .resume => resumeAudio st
  | .stop => stopAudio st
  | .reset => resetPlayer st
  | .seek io val => seekAudio io val st

/-- The Paused status is only reachable from an active playback session. -/
def pausedImpliesPlaying (st : PlayerState) : Prop :=
  st.paused = true → st.playing = true

/-! ## Concrete fixtures used by witnesses and counterexamples -/

/-- Task outcomes where the spectral-centroid future raised `"boom"` and every
other task succeeded. -/
def tFail : TaskResults :=
  { rms := .ok [1], zcr := .ok [0], pitch := .ok [],
    centroid := .error "boom", bw := .ok [1], onsetTempo := .ok 120 }

/-- Task outcomes where every task succeeded. -/
def tOk : TaskResults :=
  { rms := .ok [1], zcr := .ok [0], pitch := .ok [],
    centroid := .ok [2], bw := .ok [3], onsetTempo := .ok 120 }

/-- A 61-sample silent track; at 1 Hz it lasts 61 seconds, one second longer
than the 60-second analysis window. -/
def s61 : List ℚ := List.replicate 61 0

/-- A seek environment whose write and every delete succeed. -/
def io0 : SeekIO := ⟨"seek_temp_1.wav", true, fun _ => true⟩

/-- A player state whose temp directory holds one stale seek asset. -/
def stW : PlayerState := { initState with tempAssets := ["seek_temp_0.wav"] }

/-! ## Theorems -/

/-- C1: The scoring function maps a FeatureSet to five sub-scores, each 20
when its criterion holds (Bitrate: bitrate_kbps > 256; Dynamic range:
dynamic_range_db > 12; Encoding quality: bitrate_kbps > 256; Loudness &
dynamics: loudness_db > -18 and dynamic_range_db > 12; Structural integrity:
spectral_bandwidth_hz > 1000) and 10 otherwise, and the composite score is
their sum; the feature vector (320, 15, -10, 1200) yields composite 100 and
(128, 8, -20, 500) yields composite 50. -/
theorem scoring_rule_table_and_examples :
    (∀ f : Features,
      (f.bitrate_kbps > 256 → (scoreDetail f).bitrate = 20) ∧
      (¬ f.bitrate_kbps > 256 → (scoreDetail f).bitrate = 10) ∧
      (f.dynamic_range_db > 12 → (scoreDetail f).dynamicRange = 20) ∧
      (¬ f.dynamic_range_db > 12 → (scoreDetail f).dynamicRange = 10) ∧
      (f.bitrate_kbps > 256 → (scoreDetail f).encodingQuality = 20) ∧
      (¬ f.bitrate_kbps > 256 → (scoreDetail f).encodingQuality = 10) ∧
      (f.loudness_db > -18 ∧ f.dynamic_range_db > 12 →
        (scoreDetail f).loudnessDynamics = 20) ∧
      (¬ (f.loudness_db > -18 ∧ f.dynamic_range_db > 12) →
        (scoreDetail f).loudnessDynamics = 10) ∧
      (f.spectral_bandwidth_hz > 1000 → (scoreDetail f).structuralIntegrity = 20) ∧
      (¬ f.spectral_bandwidth_hz > 1000 → (scoreDetail f).structuralIntegrity = 10) ∧
      compositeScore f =
        (scoreDetail f).bitrate + (scoreDetail f).dynamicRange +
          (scoreDetail f).encodingQuality + (scoreDetail f).loudnessDynamics +
          (scoreDetail f).structuralIntegrity) ∧
    compositeScore ⟨320, 15, -10, 1200⟩ = 100 ∧
    compositeScore ⟨128, 8, -20, 500⟩ = 50 := by
  refine ⟨fun f => ?_, by decide, by decide⟩
  refine ⟨fun h => ?_, fun h => ?_, fun h => ?_, fun h => ?_, fun h => ?_,
    fun h => ?_, fun h => ?_, fun h => ?_, fun h => ?_, fun h => ?_, rfl⟩ <;>
    simp [scoreDetail, h]

/-- C1 witness: the rule table evaluated at the all-high example. -/
theorem scoring_rule_table_and_examples_witness :
    (scoreDetail ⟨320, 15, -10, 1200⟩).bitrate = 20 :=
  (scoring_rule_table_and_examples.1 ⟨320, 15, -10, 1200⟩).1 (by decide)

/-- C2 counterexample: with the spectral-centroid task failing, the method
aborts with that task's exception, yet the loudness, dynamic-range and
silent-ratio lines were already inserted — partial feature results are
reported. -/
theorem extraction_partial_report_cex :
    (runExtraction (fun x => x) tFail [1]).2 = Except.error "boom" ∧
    (runExtraction (fun x => x) tFail [1]).1 ≠ [] :=
  ⟨rfl, by decide⟩

/-- C2 amended: if any feature task fails, the whole extraction aborts with
that task's exception before the scoring section, so no FeatureSet and no
composite score are produced — but info lines already inserted for features
computed before the failure remain reported. -/
theorem extraction_failure_aborts (log10 : ℚ → ℚ) (t : TaskResults)
    (y : List ℚ) (h : t.anyFailed = true) :
    (∃ e, (runExtraction log10 t y).2 = Except.error e) ∧
    (∀ bitrate, analyzeScore log10 t y bitrate = none) := by
  obtain ⟨r, z, p, c, b, o⟩ := t
  cases o <;> cases r <;> cases c <;> cases b <;> cases z <;> cases p <;>
    simp_all [TaskResults.anyFailed, exceptFailed, runExtraction, analyzeScore]

/-- C2 witness: the amended abort property at the concrete failing run. -/
theorem extraction_failure_aborts_witness :
    (∃ e, (runExtraction (fun x => x) tFail [1]).2 = Except.error e) ∧
    (∀ bitrate, analyzeScore (fun x => x) tFail [1] bitrate = none) :=
  extraction_failure_aborts (fun x => x) tFail [1] (by decide)

/-- C5: the pitch estimate keeps exactly those pitch bins whose magnitude
exceeds the median magnitude taken over the whole pitch/magnitude matrix, and
reports the mean of the kept bins, or 0 when no bin is kept. -/
theorem pitch_threshold_exact (bins : List (ℚ × ℚ)) :
    (∀ b, b ∈ bins.filter
        (fun c => decide (npMedian (bins.map Prod.snd) < c.2)) ↔
      b ∈ bins ∧ npMedian (bins.map Prod.snd) < b.2) ∧
    pitchMeanOf bins =
      (if bins.filter (fun c => decide (npMedian (bins.map Prod.snd) < c.2))
          = [] then 0
       else qmean ((bins.filter
          (fun c => decide (npMedian (bins.map Prod.snd) < c.2))).map
            Prod.fst)) :=
  ⟨fun b => by simp [List.mem_filter], rfl⟩

/-- C5 witness: in a concrete matrix the bin of magnitude 10 exceeds the
median magnitude 5 and is kept. -/
theorem pitch_threshold_exact_witness :
    ((300 : ℚ), (10 : ℚ)) ∈
      ([((100 : ℚ), (5 : ℚ)), (200, 1), (300, 10)] : List (ℚ × ℚ)).filter
        (fun c => decide (npMedian
          (([((100 : ℚ), (5 : ℚ)), (200, 1), (300, 10)] :
            List (ℚ × ℚ)).map Prod.snd) < c.2)) :=
  ((pitch_threshold_exact _).1 _).mpr ⟨by decide, by decide⟩

/-- Folding list append from an accumulator concatenates the chunks. -/
theorem foldl_append_eq_join (L : List (List ℕ)) (acc : List ℕ) :
    L.foldl (fun a c => a ++ c) acc = acc ++ L.flatten := by
  induction L generalizing acc with
  | nil => simp
  | cons x xs ih => simp [ih, List.append_assoc]

/-- Reassembling the 8192-byte read chunks gives back the byte content. -/
theorem chunksOf_join (l : List ℕ) : (chunksOf l).flatten = l := by
  induction l using chunksOf.induct with
  | case1 => simp [chunksOf]
  | case2 a rest ih =>
    rw [chunksOf]
    simp only [List.flatten_cons]
    rw [ih, List.take_append_drop]

/-- C6: the content hash is deterministic — hashing the same byte content
yields the same digest whatever the path — and the chunk-streamed
`hash_file` digest equals the one-shot whole-file digest used during
analysis. -/
theorem hash_deterministic_and_chunked (digest : List ℕ → String)
    (fs : String → List ℕ) :
    (∀ path, hashFile digest fs path = md5OneShot digest (fs path)) ∧
    (∀ p q, fs p = fs q → hashFile digest fs p = hashFile digest fs q) ∧
    (∀ content, md5Stream digest content = md5OneShot digest content) := by
  have key : ∀ content, md5Stream digest content = md5OneShot digest content := by
    intro c
    unfold md5Stream md5OneShot
    rw [foldl_append_eq_join, List.nil_append, chunksOf_join]
  exact ⟨fun p => key _, fun p q h => by unfold hashFile; rw [h], key⟩

/-- C6 witness: two paths holding identical bytes hash identically. -/
theorem hash_deterministic_and_chunked_witness :
    hashFile (fun c => toString c.length) (fun _ => [1, 2, 3]) "a" =
      hashFile (fun c => toString c.length) (fun _ => [1, 2, 3]) "b" :=
  (hash_deterministic_and_chunked (fun c => toString c.length)
    (fun _ => [1, 2, 3])).2.1 "a" "b" rfl

/-- C7: for a completed analysis run (all extraction tasks succeed and the
spectrogram display callback runs), the sequence of progress percent values
is monotonically non-decreasing and the final value is 100. -/
theorem progress_monotone_terminal (log10 : ℚ → ℚ) (t : TaskResults)
    (y : List ℚ) (h : t.anyFailed = false) :
    List.Chain' (· ≤ ·) (analyzeProgressTrace log10 t y true) ∧
    (analyzeProgressTrace log10 t y true).getLast? = some 100 := by
  obtain ⟨r, z, p, c, b, o⟩ := t
  cases o <;> cases r <;> cases c <;> cases b <;> cases z <;> cases p <;>
    simp_all [TaskResults.anyFailed, exceptFailed] <;>
    exact ⟨by show List.Chain' (· ≤ ·) ([0, 10, 50, 60, 70, 80, 100] : List ℕ)
              norm_num [List.chain'_cons, List.chain'_singleton],
           by show ([0, 10, 50, 60, 70, 80, 100] : List ℕ).getLast? = some 100; rfl⟩

/-- C7 witness: the progress trace of the concrete successful run. -/
theorem progress_monotone_terminal_witness :
    List.Chain' (· ≤ ·) (analyzeProgressTrace (fun x => x) tOk [1] true) ∧
    (analyzeProgressTrace (fun x => x) tOk [1] true).getLast? = some 100 :=
  progress_monotone_terminal (fun x => x) tOk [1] (by decide)

/-- Sum of a cons. -/
theorem qsum_cons (a : ℚ) (l : List ℚ) : qsum (a :: l) = a + qsum l := rfl

/-- The sum of the 0/1 indicator of a predicate counts the satisfying
elements. -/
theorem qsum_indicator (p : ℚ → Prop) [DecidablePred p] (y : List ℚ) :
    qsum (y.map (fun x => if p x then (1 : ℚ) else 0)) =
      (y.countP (fun x => decide (p x)) : ℚ) := by
  induction y with
  | nil => simp [qsum]
  | cons a l ih =>
    rw [List.map_cons, qsum_cons, ih, List.countP_cons]
    by_cases h : p a <;> simp [h] <;> push_cast <;> ring

/-- The silent ratio is the number of samples below the silence threshold
divided by the number of samples. -/
theorem silentRatio_eq_countP (y : List ℚ) :
    silentRatio y =
      (y.countP (fun x => decide (|x| < silentEps)) : ℚ) / (y.length : ℚ) := by
  unfold silentRatio qmean
  rw [qsum_indicator, List.length_map]

/-- Every sample's absolute value is bounded by the peak. -/
theorem abs_le_peakAbs (y : List ℚ) : ∀ x ∈ y, |x| ≤ peakAbs y := by
  induction y with
  | nil => intro x hx; cases hx
  | cons a l ih =>
    intro x hx
    have hcons : peakAbs (a :: l) = max |a| (peakAbs l) := rfl
    rcases List.mem_cons.mp hx with h | h
    · rw [h, hcons]; exact le_max_left _ _
    · rw [hcons]; exact le_trans (ih x h) (le_max_right _ _)

/-- C4: for every extracted buffer (given the per-frame RMS values the rms
task returned), loudness_db equals 20·log10(mean_frame_rms + 1e-9),
dynamic_range_db equals 20·log10((peak + 1e-9)/(mean_frame_rms + 1e-9)) where
peak is the maximum absolute sample value, and silent_ratio equals the
fraction of samples whose absolute value is below 1e-4. -/
theorem extraction_numeric_semantics (log10 : ℚ → ℚ)
    (y framesRms zc cen bwAll : List ℚ) (bins : List (ℚ × ℚ)) (tempo : ℚ) :
    ((runExtraction log10
        ⟨.ok framesRms, .ok zc, .ok bins, .ok cen, .ok bwAll, .ok tempo⟩
        y).2.map
      (fun ex => (ex.loudness_db, ex.dynamic_range_db, ex.silent_ratio))) =
      Except.ok (20 * log10 (qmean framesRms + eps),
        20 * log10 ((peakAbs y + eps) / (qmean framesRms + eps)),
        (y.countP (fun x => decide (|x| < silentEps)) : ℚ) / (y.length : ℚ)) ∧
    (∀ x ∈ y, |x| ≤ peakAbs y) := by
  constructor
  · show Except.ok (loudnessDb log10 (qmean framesRms),
        dynamicRangeDb log10 (peakAbs y) (qmean framesRms),
        silentRatio y) = _
    rw [silentRatio_eq_countP]
    rfl
  · exact abs_le_peakAbs y

/-- C4 witness: the peak bound instantiated on a one-sample buffer. -/
theorem extraction_numeric_semantics_witness : |(1 : ℚ)| ≤ peakAbs [1] :=
  (extraction_numeric_semantics (fun x => x) [1] [1] [0] [2] [3] [] 120).2
    1 (by decide)

/-- A seek to value 0 on a loaded nonempty track reaches the success branch
and materializes the capped analysis buffer, leaving the sample rate and
duration fields unchanged. -/
theorem seekAudio_zero_state (samples : List ℚ) (sr : ℕ) (io : SeekIO)
    (hne0 : samples ≠ []) (hsr' : (0 : ℚ) < (sr : ℚ))
    (hy : samples.take (60 * sr) ≠ []) (hw : io.writeOk = true) :
    (seekAudio io 0 (loadAudio samples sr initState)).asset =
      some (samples.take (60 * sr)) ∧
    (seekAudio io 0 (loadAudio samples sr initState)).sr = sr ∧
    (seekAudio io 0 (loadAudio samples sr initState)).duration =
      (samples.length : ℚ) / (sr : ℚ) := by
  have h0 : 0 < samples.length := List.length_pos.mpr hne0
  have hdur : ¬ ((samples.length : ℚ) / (sr : ℚ) ≤ 0) := by
    rw [not_le]
    exact div_pos (by exact_mod_cast h0) hsr'
  have hclamp : max 0 (min 100 (0 : ℚ)) = 0 := by norm_num
  have hzero : pyInt 0 = 0 := rfl
  have hcond : ¬ ((samples.take (60 * sr)).length ≤ 0) := by
    have := List.length_pos.mpr hy
    omega
  have hsr0 : sr ≠ 0 := by
    intro hz
    rw [hz] at hsr'
    norm_num at hsr'
  refine ⟨?_, ?_, ?_⟩ <;>
    simp [seekAudio, loadAudio, initState, hdur, hclamp, hzero, hcond, hw,
      hsr0, hne0]

/-- C3 counterexample: a 61-second track at 1 Hz — one second longer than
the 60-second analysis window loaded at line 471 — seeks to fraction 0.0
into the 60-sample capped buffer `self.y`, while a fresh `play()` plays the
full 61-sample file; the assets differ and the remaining duration (60 s) is
shorter than the track duration (61 s). -/
theorem seek_zero_not_full_track_cex :
    (seekAudio io0 0 (loadAudio s61 1 initState)).asset ≠
      (playAudio (loadAudio s61 1 initState)).asset ∧
    assetDuration (seekAudio io0 0 (loadAudio s61 1 initState)) ≠
      (loadAudio s61 1 initState).duration := by
  obtain ⟨h1, hsr1, _⟩ := seekAudio_zero_state s61 1 io0
    (by simp [s61]) (by norm_num) (by simp [s61]) rfl
  have h2 : (playAudio (loadAudio s61 1 initState)).asset = some s61 := by
    simp [playAudio, loadAudio, initState]
  have h3 : assetDuration (seekAudio io0 0 (loadAudio s61 1 initState))
      = 60 := by
    unfold assetDuration
    rw [h1, hsr1]
    simp [s61]
  have h4 : (loadAudio s61 1 initState).duration = 61 := by
    simp [loadAudio, s61]
  constructor
  · rw [h1, h2]
    simp only [ne_eq, Option.some.injEq]
    intro hEq
    have hlen : (s61.take (60 * 1)).length = s61.length := by rw [hEq]
    simp [s61] at hlen
  · rw [h3, h4]
    norm_num

/-- C3 amended: for every loaded track whose length does not exceed the
60-second analysis window, seeking to fraction 0.0 produces playback
equivalent to a fresh play() from the start: the materialized asset contains
the same samples as the full track and the total remaining duration equals
the full track duration. -/
theorem seek_zero_fresh_play (samples : List ℚ) (sr : ℕ) (io : SeekIO)
    (hsr : sr ≠ 0) (hlen : samples.length ≤ 60 * sr) (hne : samples ≠ [])
    (hw : io.writeOk = true) :
    (seekAudio io 0 (loadAudio samples sr initState)).asset =
      (playAudio (loadAudio samples sr initState)).asset ∧
    assetDuration (seekAudio io 0 (loadAudio samples sr initState)) =
      (loadAudio samples sr initState).duration := by
  have h0 : 0 < samples.length := List.length_pos.mpr hne
  have hsr' : (0 : ℚ) < (sr : ℚ) := by
    exact_mod_cast Nat.pos_of_ne_zero hsr
  have htake : samples.take (60 * sr) = samples := List.take_of_length_le hlen
  have hdur : ¬ ((samples.length : ℚ) / (sr : ℚ) ≤ 0) := by
    rw [not_le]
    exact div_pos (by exact_mod_cast h0) hsr'
  have hclamp : max 0 (min 100 (0 : ℚ)) = 0 := by norm_num
  have hzero : pyInt 0 = 0 := rfl
  have hcond : ¬ (samples.length ≤ 0) := by omega
  constructor
  · simp [seekAudio, loadAudio, playAudio, initState, htake, hdur, hclamp,
      hzero, hcond, hw]
  · simp [seekAudio, loadAudio, assetDuration, initState, htake, hdur,
      hclamp, hzero, hcond, hw]

/-- C3 witness: the amended equivalence at a one-sample one-hertz track. -/
theorem seek_zero_fresh_play_witness :
    (seekAudio io0 0 (loadAudio [1] 1 initState)).asset =
      (playAudio (loadAudio [1] 1 initState)).asset ∧
    assetDuration (seekAudio io0 0 (loadAudio [1] 1 initState)) =
      (loadAudio [1] 1 initState).duration :=
  seek_zero_fresh_play [1] 1 io0 (by decide) (by decide) (by decide) rfl

/-- Python truncation of a cast natural number is that number. -/
theorem pyInt_natCast (n : ℕ) : pyInt (n : ℚ) = n := by
  simp [pyInt, Rat.num_natCast, Rat.den_natCast, Int.tdiv_one]

/-- C8: for every loaded track, seeking with a slider value at (or clamped
to) 100 — fraction 1.0 of the duration, or beyond — is a no-op: the start
sample lands at or past the end of the analysis buffer, the guard at
line 395 returns, and the state is unchanged; in particular nothing past the
end of the sample buffer is ever indexed. -/
theorem seek_at_or_past_end_noop (samples : List ℚ) (sr : ℕ) (io : SeekIO)
    (val : ℚ) (hsr : sr ≠ 0) (hval : 100 ≤ val) :
    seekAudio io val (loadAudio samples sr initState) =
      loadAudio samples sr initState := by
  by_cases hne : samples = []
  · subst hne
    simp [seekAudio, loadAudio, initState]
  · have h0 : 0 < samples.length := List.length_pos.mpr hne
    have hsr' : (0 : ℚ) < (sr : ℚ) := by
      exact_mod_cast Nat.pos_of_ne_zero hsr
    have hdur : ¬ ((samples.length : ℚ) / (sr : ℚ) ≤ 0) := by
      rw [not_le]
      exact div_pos (by exact_mod_cast h0) hsr'
    have hclamp : max 0 (min 100 val) = (100 : ℚ) := by
      rw [min_eq_left hval]
      norm_num
    have hmul : (100 : ℚ) / 100 * ((samples.length : ℚ) / (sr : ℚ))
        * (sr : ℚ) = (samples.length : ℚ) := by
      field_simp
    have hcond : (samples.take (60 * sr)).length ≤
        (pyInt (max 0 (min 100 val) / 100 *
          ((samples.length : ℚ) / (sr : ℚ)) * (sr : ℚ))).toNat := by
      rw [hclamp, hmul, pyInt_natCast, Int.toNat_natCast, List.length_take]
      exact min_le_right _ _
    simp [seekAudio, loadAudio, initState, hdur, hcond]
    intro h1 h2
    rw [List.length_take] at hcond
    omega

/-- C8 witness: the no-op at value 100 on a concrete one-second track. -/
theorem seek_at_or_past_end_noop_witness :
    seekAudio io0 100 (loadAudio [1] 1 initState) =
      loadAudio [1] 1 initState :=
  seek_at_or_past_end_noop [1] 1 io0 100 (by decide) (by norm_num)

/-- C9: a seek either leaves the temp directory unchanged (guard, early
return or caught exception) or runs the full cleanup pass over the previous
assets plus the just-written one; the cleanup removes every previous asset
whose deletion succeeds while tolerating failures, and when every deletion
succeeds no asset other than the freshly written one remains. -/
theorem seek_temp_cleanup (st : PlayerState) (io : SeekIO) (val : ℚ) :
    ((seekAudio io val st).tempAssets = st.tempAssets ∨
      (seekAudio io val st).tempAssets =
        cleanupTempAssets io.deleteOk (st.tempAssets ++ [io.newAssetName])) ∧
    (∀ f ∈ st.tempAssets, io.deleteOk f = true →
      f ∉ cleanupTempAssets io.deleteOk
        (st.tempAssets ++ [io.newAssetName])) ∧
    ((∀ f ∈ st.tempAssets, io.deleteOk f = true) →
      ∀ g ∈ cleanupTempAssets io.deleteOk
        (st.tempAssets ++ [io.newAssetName]), g = io.newAssetName) := by
  refine ⟨?_, ?_, ?_⟩
  · simp only [seekAudio]
    split
    · exact Or.inl rfl
    · split
      · exact Or.inl rfl
      · split
        · exact Or.inl rfl
        · split
          · exact Or.inr rfl
          · exact Or.inl rfl
  · intro f hf hdel
    simp [cleanupTempAssets, List.mem_filter, hdel]
  · intro hall g hg
    simp only [cleanupTempAssets, List.mem_filter, List.mem_append] at hg
    obtain ⟨hmem, hnd⟩ := hg
    have hnd' : io.deleteOk g = false := by simpa using hnd
    rcases hmem with h | h
    · exact absurd (hall g h) (by simp [hnd'])
    · simpa using h

/-- C9 witness: the stale asset of a concrete state is gone after cleanup. -/
theorem seek_temp_cleanup_witness :
    "seek_temp_0.wav" ∉ cleanupTempAssets io0.deleteOk
      (stW.tempAssets ++ [io0.newAssetName]) :=
  (seek_temp_cleanup stW io0 0).2.1 "seek_temp_0.wav" (by simp [stW]) rfl

/-- Every transport handler preserves the paused-implies-playing flag
invariant. -/
theorem stepTransport_preserves (st : PlayerState) (op : TransportOp)
    (h : pausedImpliesPlaying st) :
    pausedImpliesPlaying (stepTransport st op) := by
  cases op with
  | choose s => simp [stepTransport, chooseFile, resetPlayer, pausedImpliesPlaying]
  | load s sr => simpa [stepTransport, loadAudio, pausedImpliesPlaying] using h
  | play =>
    simp only [stepTransport, playAudio]
    split
    · exact h
    · simp [pausedImpliesPlaying]
  | pause =>
    simp only [stepTransport, pauseAudio]
    split
    · rename_i hpl
      intro _
      exact hpl
    · exact h
  | resume =>
    simp only [stepTransport, resumeAudio]
    split
    · simp [pausedImpliesPlaying]
    · exact h
  | stop => simp [stepTransport, stopAudio, pausedImpliesPlaying]
  | reset => simp [stepTransport, resetPlayer, pausedImpliesPlaying]
  | seek io val =>
    simp only [stepTransport, seekAudio]
    split
    · exact h
    · split
      · exact h
      · split
        · exact h
        · split
          · simp [pausedImpliesPlaying]
          · exact h

/-- C10: along every sequence of transport operations from the initial
controller state, the paused flag is true only while the playing flag is
true — the Paused status is reachable only from an active playback
session. -/
theorem transport_paused_only_while_playing (ops : List TransportOp) :
    pausedImpliesPlaying (ops.foldl stepTransport initState) := by
  have key : ∀ st, pausedImpliesPlaying st →
      pausedImpliesPlaying (ops.foldl stepTransport st) := by
    induction ops with
    | nil => exact fun st h => h
    | cons op rest ih =>
      intro st h
      exact ih _ (stepTransport_preserves st op h)
  exact key initState (fun h => nomatch h)

/-- C10 witness: the invariant after a concrete choose-play-pause run. -/
theorem transport_paused_only_while_playing_witness :
    pausedImpliesPlaying
      ([TransportOp.choose [1], TransportOp.play, TransportOp.pause].foldl
        stepTransport initState) :=
  transport_paused_only_while_playing
    [TransportOp.choose [1], TransportOp.play, TransportOp.pause]

end YYDB
